import Mathlib

/-!
Shallow embedding of `packages/bundler-plugin-core/src/index.ts` from
sentry-javascript-bundler-plugins, together with proofs about the
debug-id injection (`renderChunk`), the release injection hooks
(`resolveId`, `load`, `transform`), the recoverable-error sink
(`handleRecoverableError`), and the release pipeline orchestration.

Strings are modelled by Lean `String` / `List Char`; the anchored
leading-prologue regular expression used by `renderChunk` is embedded as
an explicit backtracking matcher that enumerates candidate remainders in
the ECMAScript engine's preference order.
-/

namespace SentryPlugin

/-! ## Character classes used by the regex -/

/-- Characters matched by the ECMAScript character class forming the set of
whitespace characters recognized by the regex escape for whitespace. -/
def isJsSpace (c : Char) : Bool :=
  c = ' ' || c = '\t' || c = '\n' || c = '\r' || c = '\x0b' || c = '\x0c' ||
  c = Char.ofNat 0xa0 || c = Char.ofNat 0x1680 ||
  (Char.ofNat 0x2000 ≤ c && c ≤ Char.ofNat 0x200a) ||
  c = Char.ofNat 0x2028 || c = Char.ofNat 0x2029 || c = Char.ofNat 0x202f ||
  c = Char.ofNat 0x205f || c = Char.ofNat 0x3000 || c = Char.ofNat 0xfeff

/-- ECMAScript line terminators: the characters that the dot metacharacter
does not match. -/
def isJsLineTerminator (c : Char) : Bool :=
  c = '\n' || c = '\r' || c = Char.ofNat 0x2028 || c = Char.ofNat 0x2029

/-- The double-quote character. -/
def dquote : Char := Char.ofNat 34

/-- The single-quote character. -/
def squote : Char := Char.ofNat 39

/-! ## Backtracking regex embedding

The regex in `renderChunk` is (verbatim from the source):

  (start) ( ws-run | block-comment | line-comment )* ( directive )?

anchored at the start of the chunk.  Each building block below maps an
input suffix to the list of remainders (input after the matched part) in
the order a backtracking engine tries them; the first element of the full
pattern's list is the remainder of the actual match. -/

/-- Remainders after consuming a greedy, backtrackable run of characters
satisfying `p`: longest run first, down to the empty run. -/
def greedyStarCandidates (p : Char → Bool) : List Char → List (List Char)
  | [] => [[]]
  | c :: cs =>
    if p c then greedyStarCandidates p cs ++ [c :: cs] else [c :: cs]

/-- Remainders of a block comment match: a slash-star, then a greedy run of
characters that are not U+2028/U+2029 (the dot-or-CR-or-LF alternation),
then a star-slash; longest inner run first, so the engine prefers the
last closing delimiter in the input. -/
def blockCommentCandidates (s : List Char) : List (List Char) :=
  match s with
  | c1 :: c2 :: rest =>
    if c1 = '/' && c2 = '*' then
      (greedyStarCandidates (fun c => !(c = Char.ofNat 0x2028 || c = Char.ofNat 0x2029))
          rest).filterMap
        (fun r =>
          match r with
          | d :: e :: r2 => if d = '*' && e = '/' then some r2 else none
          | _ => none)
    else []
  | _ => []

/-- Remainders of a line comment match: two slashes, a greedy run of
non-line-terminator characters, then one LF or CR character. -/
def lineCommentCandidates (s : List Char) : List (List Char) :=
  match s with
  | c1 :: c2 :: rest =>
    if c1 = '/' && c2 = '/' then
      (greedyStarCandidates (fun c => !(isJsLineTerminator c)) rest).filterMap
        (fun r =>
          match r with
          | c :: r2 => if c = '\n' || c = '\r' then some r2 else none
          | [] => none)
    else []
  | _ => []

/-- Remainders of one iteration of the starred group, alternatives in the
source order: whitespace run, block comment, line comment. -/
def prologueBodyCandidates (s : List Char) : List (List Char) :=
  greedyStarCandidates isJsSpace s ++ blockCommentCandidates s ++
    lineCommentCandidates s

/-- Remainders of the starred group, fuelled for termination.  Following the
ECMAScript repetition semantics an iteration that consumes nothing fails
(preventing an infinite loop), so body candidates equal to the current
suffix are skipped; the final singleton is the zero-iterations option,
tried last because the star is greedy. -/
def starCandidatesFuel : Nat → List Char → List (List Char)
  | 0, s => [s]
  | n + 1, s =>
    ((prologueBodyCandidates s).filter (fun r => r.length < s.length)).flatMap
      (starCandidatesFuel n) ++ [s]

/-- Remainders of the starred group on `s`; the fuel bound is the length of
`s`, which suffices because every iteration consumes at least one
character. -/
def starCandidates (s : List Char) : List (List Char) :=
  starCandidatesFuel s.length s

/-- Remainders of a directive match for a given quote character: the quote,
a greedy run of non-quote characters, the quote again, a semicolon. -/
def quotedDirectiveCandidates (q : Char) (s : List Char) : List (List Char) :=
  match s with
  | c :: rest =>
    if c = q then
      (greedyStarCandidates (fun x => !(x = q)) rest).filterMap
        (fun r =>
          match r with
          | d :: e :: r2 => if d = q && e = ';' then some r2 else none
          | _ => none)
    else []
  | [] => []

/-- Remainders of the optional directive-prologue part: double-quoted
directive, else single-quoted directive, else nothing (the question mark
is greedy, so matching is preferred over skipping). -/
def directiveCandidates (s : List Char) : List (List Char) :=
  quotedDirectiveCandidates dquote s ++ quotedDirectiveCandidates squote s ++ [s]

/-- Remainders of the full anchored prologue pattern, in backtracking
order. -/
def prologueMatchCandidates (s : List Char) : List (List Char) :=
  (starCandidates s).flatMap directiveCandidates

/-- Remainder of the input after the prefix matched by the prologue regex
(the match a backtracking engine returns is the first candidate). -/
def prologueRemainder (s : List Char) : List Char :=
  match prologueMatchCandidates s with
  | r :: _ => r
  | [] => s

/-- The prefix of the input matched by the prologue regex. -/
def prologueMatchPrefix (s : List Char) : List Char :=
  s.take (s.length - (prologueRemainder s).length)

/-! ## Identifier generator (not under src/)

The implementation of `stringToUUID` lives in `utils.ts`, which is not part
of the provided sources; only its call site in `renderChunk` is. -/

/-- Modelled from the spec: `stringToUUID` (in the missing `utils.ts`) hashes
the full content with a standard deterministic hash and formats the first
128 bits per UUID layout rules, with the version and variant bits fixed so
the output is syntactically a valid UUID.  Here: an FNV-style fold over
the character codes, reduced modulo two to the 128. -/
def contentHash (s : String) : Nat :=
  s.data.foldl (fun h c => (h * 16777619 + c.toNat) % (2 ^ 128)) 2166136261

/-- Hexadecimal digit character for a value below sixteen. -/
def hexDigitChar (n : Nat) : Char :=
  if n < 10 then Char.ofNat (48 + n) else Char.ofNat (87 + n)

/-- Big-endian fixed-width hexadecimal rendering. -/
def toHexFixed : Nat → Nat → List Char
  | 0, _ => []
  | w + 1, n => toHexFixed w (n / 16) ++ [hexDigitChar (n % 16)]

/-- Modelled from the spec: the identifier generator returns the canonical
textual UUID form, five hyphen-separated hex groups of lengths
8-4-4-4-12, version nibble fixed to 4 and variant bits fixed to the
8..b range, derived deterministically from the content hash. -/
def stringToUUID (s : String) : String :=
  let h := contentHash s
  ⟨toHexFixed 8 (h % 2 ^ 32) ++ '-' ::
    (toHexFixed 4 (h / 2 ^ 32 % 2 ^ 16) ++ '-' ::
      (hexDigitChar 4 :: toHexFixed 3 (h / 2 ^ 48 % 2 ^ 12) ++ '-' ::
        (hexDigitChar (8 + h / 2 ^ 60 % 4) :: toHexFixed 3 (h / 2 ^ 62 % 2 ^ 12) ++ '-' ::
          toHexFixed 12 (h / 2 ^ 74 % 2 ^ 48))))⟩

/-! ## Debug id snippet and renderChunk -/

/-- Constant part of the snippet before the first debug id occurrence. -/
def snippetPart1 : String :=
  ";!function()\x7btry\x7bvar e=\"undefined\"!=typeof window?window:\"undefined\"!=typeof global?global:\"undefined\"!=typeof self?self:\x7b\x7d,n=(new Error).stack;n&&(e._sentryDebugIds=e._sentryDebugIds||\x7b\x7d,e._sentryDebugIds[n]=\""

/-- Constant part of the snippet between the two debug id occurrences. -/
def snippetPart2 : String :=
  "\",e._sentryDebugIdIdentifier=\"sentry-dbid-"

/-- Constant part of the snippet after the second debug id occurrence. -/
def snippetPart3 : String :=
  "\")\x7dcatch(e)\x7b\x7d\x7d();"

/-- Embedding of `getDebugIdSnippet`: the template literal from the source,
with the debug id spliced in at its two occurrences. -/
def getDebugIdSnippet (debugId : String) : String :=
  snippetPart1 ++ debugId ++ snippetPart2 ++ debugId ++ snippetPart3

/-- MagicString's `generateMap` is a deterministic function of the buffer
state; the map is modelled by the data that determines it: the file
option passed to `generateMap`, the original text and the edited text. -/
structure SourceMap where
  file : Option String
  source : List Char
  edited : List Char
deriving DecidableEq, Repr

/-- Result of a hook that edits code and regenerates a map. -/
structure EditedCode where
  code : String
  map : SourceMap
deriving DecidableEq, Repr

/-- File endings for which `renderChunk` processes a chunk. -/
def jsChunkEndings : List String := [".js", ".mjs", ".cjs"]

/-- Embedding of the ending test `fileName.endsWith(ending)`. -/
def strEndsWith (s post : String) : Bool :=
  post.data.isSuffixOf s.data

/-- Embedding of `renderChunk` from `createRollupDebugIdInjectionHooks`:
for chunks with a recognized ending, compute the deterministic debug id,
build the snippet, and either replace the non-empty prologue match by
itself followed by the snippet, or prepend the snippet when the prologue
match is empty; other chunks are left untouched (`null`). -/
def renderChunk (code : String) (fileName : String) : Option EditedCode :=
  if jsChunkEndings.any (fun ending => strEndsWith fileName ending) then
    let debugId := stringToUUID code
    let codeToInject := getDebugIdSnippet debugId
    let matched := prologueMatchPrefix code.data
    let newData :=
      if matched.isEmpty then codeToInject.data ++ code.data
      else matched ++ codeToInject.data ++ prologueRemainder code.data
    some { code := ⟨newData⟩
           map := { file := some fileName, source := code.data, edited := newData } }
  else
    none

/-! ## Release injection hooks -/

/-- The reserved synthetic module id (a NUL byte followed by the marker). -/
def virtualReleaseInjectionFileId : String := "\x00sentry-release-injection-file"

/-- Marker returned by `resolveId` for the synthetic module. -/
structure ResolveIdResult where
  id : String
  external : Bool
  moduleSideEffects : Bool
deriving DecidableEq, Repr

/-- Embedding of the `resolveId` hook. -/
def resolveId (id : String) : Option ResolveIdResult :=
  if id = virtualReleaseInjectionFileId then
    some { id := virtualReleaseInjectionFileId
           external := false
           moduleSideEffects := true }
  else
    none

/-- Embedding of the `load` hook, parameterized by the injection code the
factory was given. -/
def load (injectionCode : String) (id : String) : Option String :=
  if id = virtualReleaseInjectionFileId then some injectionCode else none

/-- Boolean substring test on character lists. -/
def listContainsInfix (needle : List Char) : List Char → Bool
  | [] => needle.isEmpty
  | c :: cs => needle.isPrefixOf (c :: cs) || listContainsInfix needle cs

/-- Infix test for the dependency-tree path segment, embedding the regex
alternation of a backslash-delimited and a slash-delimited segment. -/
def containsNodeModules (id : String) : Bool :=
  listContainsInfix "\\node_modules\\".data id.data ||
    listContainsInfix "/node_modules/".data id.data

/-- Source extensions accepted by the `transform` hook. -/
def transformEndings : List String := [".js", ".ts", ".jsx", ".tsx", ".mjs"]

/-- The statement appended by `transform`. -/
def releaseImportStatement : String :=
  "\n\n;import \"" ++ virtualReleaseInjectionFileId ++ "\";"

/-- Embedding of the `transform` hook: decline for the synthetic module,
for dependency-tree paths, and for unrecognized endings; otherwise append
the import of the synthetic module and regenerate a map (no file option
is passed to `generateMap` there). -/
def transform (code : String) (id : String) : Option EditedCode :=
  if id = virtualReleaseInjectionFileId then none
  else if containsNodeModules id then none
  else if !(transformEndings.any (fun ending => strEndsWith id ending)) then none
  else
    some { code := code ++ releaseImportStatement
           map := { file := none
                    source := code.data
                    edited := (code ++ releaseImportStatement).data } }

/-! ## Recoverable-error sink -/

/-- A thrown JavaScript value: either an instance of `Error` (carrying its
message) or any other value. -/
inductive JsValue where
  | errorVal (message : String)
  | nonError (payload : String)
deriving DecidableEq, Repr

/-- The `instanceof Error` test. -/
def isErrorInstance : JsValue → Bool
  | .errorVal _ => true
  | .nonError _ => false

/-- Observable effects of the sink: an invocation of the configured
`errorHandler` callback, or a `throw` to the host. -/
inductive SinkEffect where
  | callbackInvoked (arg : JsValue)
  | raised (v : JsValue)
deriving DecidableEq, Repr

/-- Result of running the sink: the status set on the plugin execution
transaction, and the effects in order. -/
structure SinkResult where
  transactionStatus : String
  effects : List SinkEffect
deriving DecidableEq, Repr

/-- Embedding of `handleRecoverableError`: always set the transaction
status; with a configured `errorHandler`, call it once with the error
itself when it is an `Error` instance and with a fresh generic `Error`
otherwise; without one, re-raise the original value. -/
def handleRecoverableError (hasErrorHandler : Bool) (unknownError : JsValue) :
    SinkResult :=
  { transactionStatus := "internal_error"
    effects :=
      if hasErrorHandler then
        if isErrorInstance unknownError then
          [SinkEffect.callbackInvoked unknownError]
        else
          [SinkEffect.callbackInvoked (JsValue.errorVal "An unknown error occured")]
      else
        [SinkEffect.raised unknownError] }

/-! ## Release pipeline (not under src/)

The implementation of `releaseManagementPlugin` lives in
`plugins/release-management.ts`, which is not part of the provided
sources; only the configuration passed to it in `index.ts` is. -/

/-- The remote operations of the release pipeline. -/
inductive ReleaseStep where
  | create
  | cleanArtifacts
  | uploadSourceMaps
  | setCommits
  | finalizeRelease
  | addDeploy
deriving DecidableEq, Repr

/-- Configuration flags consumed by the pipeline, as passed from
`sentryUnpluginFactory` into `releaseManagementPlugin`. -/
structure ReleasePipelineConfig where
  shouldCleanArtifacts : Bool
  shouldUploadSourceMaps : Bool
  shouldFinalizeRelease : Bool
  hasSetCommitsOption : Bool
  hasDeployOptions : Bool
deriving DecidableEq, Repr

/-- Modelled from the spec: `releaseManagementPlugin` (in the missing
`plugins/release-management.ts`) executes the remote steps strictly in
the order create, clean, upload, set-commits, finalize, deploy; create
always runs and its failure aborts the pipeline, every later step is
skippable by its flag and its failure is recoverable (later steps still
run).  The function returns the remote operations performed, in order,
given which operations would succeed. -/
def runReleasePipeline (cfg : ReleasePipelineConfig)
    (succeeds : ReleaseStep → Bool) : List ReleaseStep :=
  if succeeds ReleaseStep.create then
    ReleaseStep.create ::
      ((if cfg.shouldCleanArtifacts then [ReleaseStep.cleanArtifacts] else []) ++
        (if cfg.shouldUploadSourceMaps then [ReleaseStep.uploadSourceMaps] else []) ++
        (if cfg.hasSetCommitsOption then [ReleaseStep.setCommits] else []) ++
        (if cfg.shouldFinalizeRelease then [ReleaseStep.finalizeRelease] else []) ++
        (if cfg.hasDeployOptions then [ReleaseStep.addDeploy] else []))
  else
    [ReleaseStep.create]

/-- Lowercase hexadecimal digit test, used to state the UUID shape. -/
def isHexDigit (c : Char) : Bool :=
  ('0' ≤ c && c ≤ '9') || ('a' ≤ c && c ≤ 'f')

/-! ## Helper lemmas: every candidate remainder is a suffix of the input -/

theorem strData_append (a b : String) : (a ++ b).data = a.data ++ b.data := by
  cases a; cases b; rfl

theorem suffix_of_mem_greedyStar (p : Char → Bool) :
    ∀ s r : List Char, r ∈ greedyStarCandidates p s → r <:+ s := by
  intro s
  induction s with
  | nil =>
    intro r hr
    simp only [greedyStarCandidates, List.mem_singleton] at hr
    exact hr ▸ List.suffix_refl []
  | cons c cs ih =>
    intro r hr
    simp only [greedyStarCandidates] at hr
    by_cases hp : p c
    · rw [if_pos hp] at hr
      rcases List.mem_append.mp hr with h1 | h2
      · exact (ih r h1).trans (List.suffix_cons c cs)
      · simp only [List.mem_singleton] at h2
        exact h2 ▸ List.suffix_refl _
    · rw [if_neg hp] at hr
      simp only [List.mem_singleton] at hr
      exact hr ▸ List.suffix_refl _

theorem cons_cons_suffix (a b : Char) (l s : List Char) (h : a :: b :: l <:+ s) :
    l <:+ s :=
  ((List.suffix_cons b l).trans (List.suffix_cons a (b :: l))).trans h

theorem suffix_of_mem_blockComment (s r : List Char)
    (hr : r ∈ blockCommentCandidates s) : r <:+ s := by
  unfold blockCommentCandidates at hr
  split at hr
  · rename_i c1 c2 rest
    split at hr
    · rcases List.mem_filterMap.mp hr with ⟨r0, hr0, hf⟩
      have h0 : r0 <:+ rest := suffix_of_mem_greedyStar _ rest r0 hr0
      have h0s : r0 <:+ c1 :: c2 :: rest :=
        h0.trans ((List.suffix_cons c2 rest).trans (List.suffix_cons c1 (c2 :: rest)))
      split at hf
      · rename_i d e r2
        split at hf
        · cases hf
          exact cons_cons_suffix d e r _ h0s
        · exact absurd hf (by simp)
      · exact absurd hf (by simp)
    · exact absurd hr (by simp)
  · exact absurd hr (by simp)

theorem suffix_of_mem_lineComment (s r : List Char)
    (hr : r ∈ lineCommentCandidates s) : r <:+ s := by
  unfold lineCommentCandidates at hr
  split at hr
  · rename_i c1 c2 rest
    split at hr
    · rcases List.mem_filterMap.mp hr with ⟨r0, hr0, hf⟩
      have h0 : r0 <:+ rest := suffix_of_mem_greedyStar _ rest r0 hr0
      have h0s : r0 <:+ c1 :: c2 :: rest :=
        h0.trans ((List.suffix_cons c2 rest).trans (List.suffix_cons c1 (c2 :: rest)))
      split at hf
      · rename_i c r2
        split at hf
        · cases hf
          exact ((List.suffix_cons c r).trans h0s)
        · exact absurd hf (by simp)
      · exact absurd hf (by simp)
    · exact absurd hr (by simp)
  · exact absurd hr (by simp)

theorem suffix_of_mem_quotedDirective (q : Char) (s r : List Char)
    (hr : r ∈ quotedDirectiveCandidates q s) : r <:+ s := by
  unfold quotedDirectiveCandidates at hr
  split at hr
  · rename_i c rest
    split at hr
    · rcases List.mem_filterMap.mp hr with ⟨r0, hr0, hf⟩
      have h0 : r0 <:+ rest := suffix_of_mem_greedyStar _ rest r0 hr0
      have h0s : r0 <:+ c :: rest := h0.trans (List.suffix_cons c rest)
      split at hf
      · rename_i d e r2
        split at hf
        · cases hf
          exact cons_cons_suffix d e r _ h0s
        · exact absurd hf (by simp)
      · exact absurd hf (by simp)
    · exact absurd hr (by simp)
  · exact absurd hr (by simp)

theorem suffix_of_mem_body (s r : List Char)
    (hr : r ∈ prologueBodyCandidates s) : r <:+ s := by
  unfold prologueBodyCandidates at hr
  rcases List.mem_append.mp hr with h1 | h2
  · rcases List.mem_append.mp h1 with h11 | h12
    · exact suffix_of_mem_greedyStar isJsSpace s r h11
    · exact suffix_of_mem_blockComment s r h12
  · exact suffix_of_mem_lineComment s r h2

theorem suffix_of_mem_directive (s r : List Char)
    (hr : r ∈ directiveCandidates s) : r <:+ s := by
  unfold directiveCandidates at hr
  rcases List.mem_append.mp hr with h1 | h2
  · rcases List.mem_append.mp h1 with h11 | h12
    · exact suffix_of_mem_quotedDirective dquote s r h11
    · exact suffix_of_mem_quotedDirective squote s r h12
  · simp only [List.mem_singleton] at h2
    exact h2 ▸ List.suffix_refl _

theorem suffix_of_mem_starFuel :
    ∀ (n : Nat) (s r : List Char), r ∈ starCandidatesFuel n s → r <:+ s := by
  intro n
  induction n with
  | zero =>
    intro s r hr
    simp only [starCandidatesFuel, List.mem_singleton] at hr
    exact hr ▸ List.suffix_refl _
  | succ n ih =>
    intro s r hr
    simp only [starCandidatesFuel] at hr
    rcases List.mem_append.mp hr with h1 | h2
    · rcases List.mem_flatMap.mp h1 with ⟨b, hb, hrb⟩
      have hbs : b ∈ prologueBodyCandidates s := (List.mem_filter.mp hb).1
      exact (ih b r hrb).trans (suffix_of_mem_body s b hbs)
    · simp only [List.mem_singleton] at h2
      exact h2 ▸ List.suffix_refl _

theorem prologueRemainder_suffix (s : List Char) : prologueRemainder s <:+ s := by
  unfold prologueRemainder
  cases hc : prologueMatchCandidates s with
  | nil => exact List.suffix_refl s
  | cons r rest =>
    have hmem : r ∈ prologueMatchCandidates s := by
      rw [hc]; exact List.mem_cons_self r rest
    unfold prologueMatchCandidates at hmem
    rcases List.mem_flatMap.mp hmem with ⟨b, hb, hrb⟩
    exact (suffix_of_mem_directive b r hrb).trans
      (suffix_of_mem_starFuel s.length s b hb)

theorem prologueMatchPrefix_append (s : List Char) :
    prologueMatchPrefix s ++ prologueRemainder s = s := by
  unfold prologueMatchPrefix
  exact List.suffix_iff_eq_append.mp (prologueRemainder_suffix s)

/-! ## Helper lemmas: hexadecimal rendering -/

theorem toHexFixed_length (w : Nat) : ∀ n : Nat, (toHexFixed w n).length = w := by
  induction w with
  | zero => intro n; rfl
  | succ w ih =>
    intro n
    simp only [toHexFixed, List.length_append, List.length_singleton, ih]

theorem isHexDigit_hexDigitChar (m : Nat) (h : m < 16) :
    isHexDigit (hexDigitChar m) = true := by
  interval_cases m <;> decide

theorem toHexFixed_allHex (w : Nat) :
    ∀ n : Nat, (toHexFixed w n).all isHexDigit = true := by
  induction w with
  | zero => intro n; rfl
  | succ w ih =>
    intro n
    simp only [toHexFixed, List.all_append, ih, Bool.true_and, List.all_cons,
      List.all_nil, Bool.and_true]
    exact isHexDigit_hexDigitChar (n % 16) (Nat.mod_lt n (by norm_num))

/-! ## Claims -/

/-- C3: for every input string, including the empty one, the identifier
generator returns an identifier of the canonical UUID textual shape: five
hyphen-separated hexadecimal groups of lengths 8, 4, 4, 4 and 12; it
never fails. -/
theorem stringToUUID_uuid_shape (s : String) :
    ∃ g1 g2 g3 g4 g5 : List Char,
      (stringToUUID s).data =
        g1 ++ '-' :: (g2 ++ '-' :: (g3 ++ '-' :: (g4 ++ '-' :: g5))) ∧
      g1.length = 8 ∧ g2.length = 4 ∧ g3.length = 4 ∧ g4.length = 4 ∧
      g5.length = 12 ∧
      (g1 ++ (g2 ++ (g3 ++ (g4 ++ g5)))).all isHexDigit = true := by
  refine ⟨toHexFixed 8 (contentHash s % 2 ^ 32),
    toHexFixed 4 (contentHash s / 2 ^ 32 % 2 ^ 16),
    hexDigitChar 4 :: toHexFixed 3 (contentHash s / 2 ^ 48 % 2 ^ 12),
    hexDigitChar (8 + contentHash s / 2 ^ 60 % 4) ::
      toHexFixed 3 (contentHash s / 2 ^ 62 % 2 ^ 12),
    toHexFixed 12 (contentHash s / 2 ^ 74 % 2 ^ 48), rfl,
    toHexFixed_length 8 _, toHexFixed_length 4 _, ?_, ?_, toHexFixed_length 12 _, ?_⟩
  · simp [toHexFixed_length 3 _]
  · simp [toHexFixed_length 3 _]
  · have h4 : isHexDigit (hexDigitChar 4) = true := by decide
    have h8 : isHexDigit (hexDigitChar (8 + contentHash s / 2 ^ 60 % 4)) = true := by
      refine isHexDigit_hexDigitChar _ ?_
      have : contentHash s / 2 ^ 60 % 4 < 4 := Nat.mod_lt _ (by norm_num)
      omega
    simp [List.all_append, List.all_cons, toHexFixed_allHex, h4]
    simpa using h8

/-- C6: the debug-id injector leaves a chunk entirely unchanged (returns
null) exactly when the chunk's file name does not end with .js, .mjs or
.cjs, regardless of the chunk's content. -/
theorem renderChunk_none_iff (code fileName : String) :
    renderChunk code fileName = none ↔
      jsChunkEndings.any (fun ending => strEndsWith fileName ending) = false := by
  unfold renderChunk
  by_cases h : jsChunkEndings.any (fun ending => strEndsWith fileName ending) = true
  · rw [if_pos h]
    simp [h]
  · rw [if_neg h]
    simp only [Bool.not_eq_true] at h
    simp [h]

/-- C2: the debug-id injection is deterministic — two invocations of
renderChunk on byte-identical chunk code and the same file name return
identical edited code and map, and the embedded debug identifier is the
same both times. -/
theorem renderChunk_deterministic (c1 c2 f1 f2 : String)
    (hc : c1 = c2) (hf : f1 = f2) :
    renderChunk c1 f1 = renderChunk c2 f2 ∧ stringToUUID c1 = stringToUUID c2 := by
  subst hc; subst hf; exact ⟨rfl, rfl⟩

/-- Closed instance of C2 at concrete inputs. -/
theorem renderChunk_deterministic_witness :
    renderChunk "foo();" "a.js" = renderChunk "foo();" "a.js" ∧
      stringToUUID "foo();" = stringToUUID "foo();" :=
  renderChunk_deterministic "foo();" "foo();" "a.js" "a.js" rfl rfl

/-- C8: resolveId returns the marker (same id, external false, side effects
true) exactly for the reserved synthetic identifier and null for every
other id; load returns the injection code exactly for that identifier and
null otherwise, so the two hooks accept precisely the same single id. -/
theorem resolveId_load_agree (injectionCode id : String) :
    (resolveId id =
      if id = virtualReleaseInjectionFileId then
        some { id := virtualReleaseInjectionFileId
               external := false
               moduleSideEffects := true }
      else none) ∧
    (load injectionCode id =
      if id = virtualReleaseInjectionFileId then some injectionCode else none) ∧
    ((resolveId id).isSome ↔ id = virtualReleaseInjectionFileId) ∧
    ((load injectionCode id).isSome ↔ id = virtualReleaseInjectionFileId) := by
  refine ⟨rfl, rfl, ?_, ?_⟩ <;>
    · by_cases h : id = virtualReleaseInjectionFileId <;>
        simp [resolveId, load, h]

/-- C4: the recoverable-error sink invokes a configured errorHandler
exactly once — with the error itself when it is an Error instance, with a
coerced generic Error otherwise — and throws nothing; without a
configured handler it re-raises the original value unchanged. -/
theorem handleRecoverableError_policy (e : JsValue) :
    (handleRecoverableError true e).effects =
      [SinkEffect.callbackInvoked
        (if isErrorInstance e then e
         else JsValue.errorVal "An unknown error occured")] ∧
    (handleRecoverableError false e).effects = [SinkEffect.raised e] ∧
    (handleRecoverableError true e).transactionStatus = "internal_error" ∧
    (handleRecoverableError false e).transactionStatus = "internal_error" := by
  refine ⟨?_, rfl, rfl, rfl⟩
  by_cases h : isErrorInstance e = true <;>
    simp [handleRecoverableError, h]

/-- C7: with cleanArtifacts disabled, source map upload enabled, finalize
enabled, no commit range and no deploy metadata configured, and every
remote call succeeding, the pipeline performs exactly Create, then Upload
source maps, then Finalize, in that order, with no Clean, Commits or
Deploy operation. -/
theorem releasePipeline_create_upload_finalize (succeeds : ReleaseStep → Bool)
    (h : ∀ st, succeeds st = true) :
    runReleasePipeline
      { shouldCleanArtifacts := false
        shouldUploadSourceMaps := true
        shouldFinalizeRelease := true
        hasSetCommitsOption := false
        hasDeployOptions := false } succeeds =
      [ReleaseStep.create, ReleaseStep.uploadSourceMaps,
        ReleaseStep.finalizeRelease] := by
  simp [runReleasePipeline, h ReleaseStep.create]

/-- Closed instance of C7 with an always-succeeding remote collaborator. -/
theorem releasePipeline_create_upload_finalize_witness :
    runReleasePipeline
      { shouldCleanArtifacts := false
        shouldUploadSourceMaps := true
        shouldFinalizeRelease := true
        hasSetCommitsOption := false
        hasDeployOptions := false } (fun _ => true) =
      [ReleaseStep.create, ReleaseStep.uploadSourceMaps,
        ReleaseStep.finalizeRelease] :=
  releasePipeline_create_upload_finalize (fun _ => true) (fun _ => rfl)

/-- On a chunk with a recognized ending, renderChunk returns the record
whose code is the snippet-extended buffer: prologue-prefixed insertion
for a non-empty match, prepend for an empty one. -/
theorem renderChunk_some (code fileName : String)
    (h : jsChunkEndings.any (fun ending => strEndsWith fileName ending) = true) :
    ∃ res : EditedCode,
      renderChunk code fileName = some res ∧
      res.code.data =
        (if (prologueMatchPrefix code.data).isEmpty then
          (getDebugIdSnippet (stringToUUID code)).data ++ code.data
        else
          prologueMatchPrefix code.data ++
            (getDebugIdSnippet (stringToUUID code)).data ++
            prologueRemainder code.data) := by
  have hres : renderChunk code fileName = some
      { code := ⟨if (prologueMatchPrefix code.data).isEmpty then
            (getDebugIdSnippet (stringToUUID code)).data ++ code.data
          else
            prologueMatchPrefix code.data ++
              (getDebugIdSnippet (stringToUUID code)).data ++
              prologueRemainder code.data⟩
        map := { file := some fileName
                 source := code.data
                 edited :=
                  if (prologueMatchPrefix code.data).isEmpty then
                    (getDebugIdSnippet (stringToUUID code)).data ++ code.data
                  else
                    prologueMatchPrefix code.data ++
                      (getDebugIdSnippet (stringToUUID code)).data ++
                      prologueRemainder code.data } } := by
    unfold renderChunk
    rw [h]
    rfl
  exact ⟨_, hres, rfl⟩

set_option maxRecDepth 16384 in
/-- C1: for chunks with a recognized ending the snippet is never placed
before a directive prologue: when the anchored leading-prologue pattern
matches a non-empty prefix of the code the snippet is inserted
immediately after that prefix, the prefix and the rest of the code
preserved verbatim; when the pattern matches only the empty string the
snippet is prepended.  In particular for foo(); the output equals the
snippet followed by foo();, and for a chunk starting with a use-strict
directive the snippet appears immediately after the directive and before
the rest of the code. -/
theorem renderChunk_prologue_placement :
    (∀ code fileName : String,
      jsChunkEndings.any (fun ending => strEndsWith fileName ending) = true →
      ∃ res : EditedCode,
        renderChunk code fileName = some res ∧
        prologueMatchPrefix code.data ++ prologueRemainder code.data = code.data ∧
        res.code.data =
          (if (prologueMatchPrefix code.data).isEmpty then
            (getDebugIdSnippet (stringToUUID code)).data ++ code.data
          else
            prologueMatchPrefix code.data ++
              (getDebugIdSnippet (stringToUUID code)).data ++
              prologueRemainder code.data)) ∧
    ((renderChunk "foo();" "chunk.js").map (fun r => r.code) =
      some (getDebugIdSnippet (stringToUUID "foo();") ++ "foo();")) ∧
    ((renderChunk "\"use strict\";\n// comment\nfoo();" "chunk.js").map
        (fun r => r.code) =
      some ("\"use strict\";" ++
        (getDebugIdSnippet (stringToUUID "\"use strict\";\n// comment\nfoo();") ++
          "\n// comment\nfoo();"))) := by
  refine ⟨fun code fileName h => ?_, ?_, ?_⟩
  · obtain ⟨res, hres, hcode⟩ := renderChunk_some code fileName h
    exact ⟨res, hres, prologueMatchPrefix_append code.data, hcode⟩
  · decide
  · decide

/-- Closed instance of C1 at a concrete chunk. -/
theorem renderChunk_prologue_placement_witness :
    ∃ res : EditedCode,
      renderChunk "x();" "b.mjs" = some res ∧
      prologueMatchPrefix "x();".data ++ prologueRemainder "x();".data =
        "x();".data ∧
      res.code.data =
        (if (prologueMatchPrefix "x();".data).isEmpty then
          (getDebugIdSnippet (stringToUUID "x();")).data ++ "x();".data
        else
          prologueMatchPrefix "x();".data ++
            (getDebugIdSnippet (stringToUUID "x();")).data ++
            prologueRemainder "x();".data) :=
  renderChunk_prologue_placement.1 "x();" "b.mjs" (by decide)

/-- C9: on every chunk with a matching file name the injection preserves
the original code in full — the output code is prefix, snippet, suffix
where prefix concatenated with suffix is exactly the original code; no
original character is deleted, reordered or rewritten. -/
theorem renderChunk_frame (code fileName : String)
    (h : jsChunkEndings.any (fun ending => strEndsWith fileName ending) = true) :
    ∃ (pfx sfx : List Char) (res : EditedCode),
      renderChunk code fileName = some res ∧
      pfx ++ sfx = code.data ∧
      res.code.data =
        pfx ++ ((getDebugIdSnippet (stringToUUID code)).data ++ sfx) := by
  obtain ⟨res, hres, hcode⟩ := renderChunk_some code fileName h
  by_cases he : (prologueMatchPrefix code.data).isEmpty = true
  · rw [if_pos he] at hcode
    exact ⟨[], code.data, res, hres, rfl, by simpa using hcode⟩
  · rw [if_neg he] at hcode
    exact ⟨prologueMatchPrefix code.data, prologueRemainder code.data, res, hres,
      prologueMatchPrefix_append code.data,
      by simpa [List.append_assoc] using hcode⟩

/-- Closed instance of C9 at a concrete chunk. -/
theorem renderChunk_frame_witness :
    ∃ (pfx sfx : List Char) (res : EditedCode),
      renderChunk "bar()" "w.cjs" = some res ∧
      pfx ++ sfx = "bar()".data ∧
      res.code.data =
        pfx ++ ((getDebugIdSnippet (stringToUUID "bar()")).data ++ sfx) :=
  renderChunk_frame "bar()" "w.cjs" (by decide)

/-- C5: the release-injection transform declines (returns null) exactly
for the synthetic module id, for paths containing a node_modules segment
and for ids without a recognized source ending; for every other id it
returns the original code unchanged with the single import statement of
the synthetic module appended at the very end, plus a generated map. -/
theorem transform_decline_or_append (code id : String) :
    (transform code id = none ↔
      (id = virtualReleaseInjectionFileId ∨ containsNodeModules id = true ∨
        transformEndings.any (fun ending => strEndsWith id ending) = false)) ∧
    (∀ res : EditedCode, transform code id = some res →
      res.code = code ++ releaseImportStatement) := by
  constructor
  · constructor
    · intro hnone
      unfold transform at hnone
      by_cases h1 : id = virtualReleaseInjectionFileId
      · exact Or.inl h1
      rw [if_neg h1] at hnone
      by_cases h2 : containsNodeModules id = true
      · exact Or.inr (Or.inl h2)
      rw [if_neg h2] at hnone
      by_cases h3 : transformEndings.any (fun ending => strEndsWith id ending) = false
      · exact Or.inr (Or.inr h3)
      · rw [if_neg (by simp [Bool.not_eq_false] at h3; simp [h3])] at hnone
        exact absurd hnone (by simp)
    · intro h
      unfold transform
      by_cases h1 : id = virtualReleaseInjectionFileId
      · rw [if_pos h1]
      · rw [if_neg h1]
        by_cases h2 : containsNodeModules id = true
        · rw [if_pos h2]
        · rw [if_neg h2]
          rcases h with h | h | h
          · exact absurd h h1
          · exact absurd h h2
          · rw [if_pos (by simp [h])]
  · intro res hres
    unfold transform at hres
    by_cases h1 : id = virtualReleaseInjectionFileId
    · rw [if_pos h1] at hres
      exact absurd hres (by simp)
    rw [if_neg h1] at hres
    by_cases h2 : containsNodeModules id = true
    · rw [if_pos h2] at hres
      exact absurd hres (by simp)
    rw [if_neg h2] at hres
    by_cases h3 : (!(transformEndings.any (fun ending => strEndsWith id ending))) = true
    · rw [if_pos h3] at hres
      exact absurd hres (by simp)
    rw [if_neg h3] at hres
    injection hres with hr
    rw [← hr]

/-- Closed instance of C5: the transform appends the import statement for
a plain source file outside node_modules. -/
theorem transform_decline_or_append_witness :
    (transform "f()" "app.ts").map (fun r => r.code) =
      some ("f()" ++ releaseImportStatement) := by
  cases hr : transform "f()" "app.ts" with
  | none =>
    have hd := (transform_decline_or_append "f()" "app.ts").1.mp hr
    exact absurd hd (by decide)
  | some r =>
    have hc := (transform_decline_or_append "f()" "app.ts").2 r hr
    simp [hc]

/-- C10 counterexample: for the debug id consisting of a bare newline the
snippet contains a line terminator, so getDebugIdSnippet does not return
a single-line string for every debugId. -/
theorem getDebugIdSnippet_not_always_single_line :
    ¬ ((getDebugIdSnippet "\n").data.all (fun c => !isJsLineTerminator c) = true) := by
  decide

/-- C10 (amended): for every debugId free of line terminators — in
particular every identifier stringToUUID produces — getDebugIdSnippet
returns a single-line string that begins with the character ';' and
contains the debugId at exactly its two template occurrences (the value
stored in _sentryDebugIds and the sentry-dbid- identifier). -/
theorem getDebugIdSnippet_shape (d : String)
    (h : d.data.all (fun c => !isJsLineTerminator c) = true) :
    (getDebugIdSnippet d).data.head? = some ';' ∧
    (getDebugIdSnippet d).data.all (fun c => !isJsLineTerminator c) = true ∧
    (getDebugIdSnippet d).data =
      snippetPart1.data ++ d.data ++ snippetPart2.data ++ d.data ++
        snippetPart3.data := by
  have hdata : (getDebugIdSnippet d).data =
      snippetPart1.data ++ d.data ++ snippetPart2.data ++ d.data ++
        snippetPart3.data := by
    simp [getDebugIdSnippet, strData_append]
  have h1 : snippetPart1.data.all (fun c => !isJsLineTerminator c) = true := by
    decide
  have h2 : snippetPart2.data.all (fun c => !isJsLineTerminator c) = true := by
    decide
  have h3 : snippetPart3.data.all (fun c => !isJsLineTerminator c) = true := by
    decide
  refine ⟨?_, ?_, hdata⟩
  · rw [hdata]
    rfl
  · rw [hdata]
    simp [List.all_append, h, h1, h2, h3]

/-- Closed instance of C10 (amended) at a concrete line-terminator-free
debug id. -/
theorem getDebugIdSnippet_shape_witness :
    ("ab-cd".data.all (fun c => !isJsLineTerminator c) = true) ∧
    ((getDebugIdSnippet "ab-cd").data.head? = some ';' ∧
      (getDebugIdSnippet "ab-cd").data.all (fun c => !isJsLineTerminator c) = true ∧
      (getDebugIdSnippet "ab-cd").data =
        snippetPart1.data ++ "ab-cd".data ++ snippetPart2.data ++ "ab-cd".data ++
          snippetPart3.data) :=
  ⟨by decide, getDebugIdSnippet_shape "ab-cd" (by decide)⟩

end SentryPlugin
